import Mathlib

/-!
Verification of the CHIP-8 emulator core (instruction decoder and execution
engine) against its design specification.

The Rust source is shallowly embedded: machine bytes are `Nat` values with
explicit `% 256` where `u8` overflow matters, fallible operations return
`Except EmulatorError`, and operations that can panic in Rust (array
indexing out of bounds, `unreachable!()`, `Key::from_num` on an
out-of-range value) are wrapped in `Option`, with `none` modelling a panic.
-/

deriving instance DecidableEq for Except

namespace Chip8

/-- Error type of the emulator (`EmulatorError` in `emulator.rs`):
unknown instruction, invalid memory access, stack underflow. -/
inductive EmulatorError where
  | instruction
  | memoryAccess
  | stackUnderflow
deriving DecidableEq, Repr

/-- The decoded instruction set (`enum Instruction` in `instruction.rs`).
Operand fields that are `usize` in the source are `Nat`; `u8` immediates
are `Nat` values below 256. -/
inductive Instruction where
  | clearScreen                                   -- 00E0
  | draw (x y n : Nat)                            -- DXYN
  | jump (adr : Nat)                              -- 1NNN
  | jumpWithOffset (adr : Nat)                    -- BNNN
  | call (adr : Nat)                              -- 2NNN
  | ret                                           -- 00EE
  | skipIfRegisterEqualsConstant (x : Nat) (c : Nat)     -- 3XNN
  | skipIfRegisterNotEqualsConstant (x : Nat) (c : Nat)  -- 4XNN
  | skipIfRegisterEqualsRegister (x y : Nat)      -- 5XY0
  | skipIfRegisterNotEqualsRegister (x y : Nat)   -- 9XY0
  | setRegisterToValue (x : Nat) (c : Nat)        -- 6XNN
  | setRegisterToValueOfRegister (x y : Nat)      -- 8XY0
  | binaryOR (x y : Nat)                          -- 8XY1
  | binaryAND (x y : Nat)                         -- 8XY2
  | binaryXOR (x y : Nat)                         -- 8XY3
  | addValueToRegister (x : Nat) (c : Nat)        -- 7XNN
  | addRegisterToRegister (x y : Nat)             -- 8XY4
  | substractXMinusY (x y : Nat)                  -- 8XY5
  | substractYMinusX (x y : Nat)                  -- 8XY7
  | shiftRight (x y : Nat)                        -- 8XY6
  | shiftLeft (x y : Nat)                         -- 8XYE
  | skipIfKeyIsPressed (x : Nat)                  -- EX9E
  | skipIfKeyIsNotPressed (x : Nat)               -- EXA1
  | getKey (x : Nat)                              -- FX0A
  | getDelayTimerValue (x : Nat)                  -- FX07
  | setDelayTimer (x : Nat)                       -- FX15
  | setSoundTimer (x : Nat)                       -- FX18
  | storeRegistersToMemory (x : Nat)              -- FX55
  | loadRegistersFromMemory (x : Nat)             -- FX65
  | setIndexRegister (adr : Nat)                  -- ANNN
  | addRegisterToIndexRegister (x : Nat)          -- FX1E
  | loadSprite (x : Nat)                          -- FX29
  | bcd (x : Nat)                                 -- FX33
  | random (x : Nat) (c : Nat)                    -- CXNN
deriving DecidableEq, Repr

/-- `extract_address`: 12-bit address from the low nibble of the first byte
and the full second byte. -/
def extract_address (instruction : Nat × Nat) : Nat :=
  let first := (instruction.1 &&& 0xF) <<< 8
  let second := instruction.2
  first ||| second

/-- `extract_registers`: register pair from the low nibble of the first
byte and the high nibble of the second byte. -/
def extract_registers (instruction : Nat × Nat) : Nat × Nat :=
  let first := instruction.1 &&& 0x0F
  let second := instruction.2 >>> 4
  (first, second)

/-- `extract_second_nibble`: low nibble of a byte. -/
def extract_second_nibble (byte : Nat) : Nat :=
  byte &&& 0x0F

/-- `Instruction::parse`. The `unreachable!()` arm of the Rust source (a
panic) is modelled as `none`; every non-panicking outcome is `some`.
Rust `match` arms on integer literals are translated as chained equality
tests, in the source's arm order. -/
def Instruction.parse (instruction : Nat × Nat) :
    Option (Except EmulatorError Instruction) :=
  let first_nibble := instruction.1 >>> 4
  if first_nibble = 0x0 then
    if instruction.1 ≠ 0 then
      some (.error .instruction)
    else if instruction.2 = 0xE0 then some (.ok .clearScreen)
    else if instruction.2 = 0xEE then some (.ok .ret)
    else some (.error .instruction)
  else if first_nibble = 0x1 then
    some (.ok (.jump (extract_address instruction)))
  else if first_nibble = 0x2 then
    some (.ok (.call (extract_address instruction)))
  else if first_nibble = 0x3 then
    some (.ok (.skipIfRegisterEqualsConstant
      (extract_second_nibble instruction.1) instruction.2))
  else if first_nibble = 0x4 then
    some (.ok (.skipIfRegisterNotEqualsConstant
      (extract_second_nibble instruction.1) instruction.2))
  else if first_nibble = 0x5 then
    if extract_second_nibble instruction.2 = 0 then
      let xy := extract_registers instruction
      some (.ok (.skipIfRegisterEqualsRegister xy.1 xy.2))
    else
      some (.error .instruction)
  else if first_nibble = 0x6 then
    some (.ok (.setRegisterToValue
      (extract_second_nibble instruction.1) instruction.2))
  else if first_nibble = 0x7 then
    some (.ok (.addValueToRegister
      (extract_second_nibble instruction.1) instruction.2))
  else if first_nibble = 0x8 then
    let fourth_nibble := extract_second_nibble instruction.2
    let xy := extract_registers instruction
    let x := xy.1
    let y := xy.2
    if fourth_nibble = 0x0 then some (.ok (.setRegisterToValueOfRegister x y))
    else if fourth_nibble = 0x1 then some (.ok (.binaryOR x y))
    else if fourth_nibble = 0x2 then some (.ok (.binaryAND x y))
    else if fourth_nibble = 0x3 then some (.ok (.binaryXOR x y))
    else if fourth_nibble = 0x4 then some (.ok (.addRegisterToRegister x y))
    else if fourth_nibble = 0x5 then some (.ok (.substractXMinusY x y))
    else if fourth_nibble = 0x6 then some (.ok (.shiftRight x y))
    else if fourth_nibble = 0x7 then some (.ok (.substractYMinusX x y))
    else if fourth_nibble = 0xE then some (.ok (.shiftLeft x y))
    else some (.error .instruction)
  else if first_nibble = 0x9 then
    if extract_second_nibble instruction.2 = 0 then
      let xy := extract_registers instruction
      some (.ok (.skipIfRegisterNotEqualsRegister xy.1 xy.2))
    else
      some (.error .instruction)
  else if first_nibble = 0xA then
    some (.ok (.setIndexRegister (extract_address instruction)))
  else if first_nibble = 0xB then
    some (.ok (.jumpWithOffset (extract_address instruction)))
  else if first_nibble = 0xC then
    some (.ok (.random (extract_second_nibble instruction.1) instruction.2))
  else if first_nibble = 0xD then
    let xy := extract_registers instruction
    some (.ok (.draw xy.1 xy.2 (extract_second_nibble instruction.2)))
  else if first_nibble = 0xE then
    let x := extract_second_nibble instruction.1
    if instruction.2 = 0x9E then some (.ok (.skipIfKeyIsPressed x))
    else if instruction.2 = 0xA1 then some (.ok (.skipIfKeyIsNotPressed x))
    else some (.error .instruction)
  else if first_nibble = 0xF then
    let x := extract_second_nibble instruction.1
    if instruction.2 = 0x07 then some (.ok (.getDelayTimerValue x))
    else if instruction.2 = 0x0A then some (.ok (.getKey x))
    else if instruction.2 = 0x15 then some (.ok (.setDelayTimer x))
    else if instruction.2 = 0x18 then some (.ok (.setSoundTimer x))
    else if instruction.2 = 0x1E then some (.ok (.addRegisterToIndexRegister x))
    else if instruction.2 = 0x29 then some (.ok (.loadSprite x))
    else if instruction.2 = 0x33 then some (.ok (.bcd x))
    else if instruction.2 = 0x55 then some (.ok (.storeRegistersToMemory x))
    else if instruction.2 = 0x65 then some (.ok (.loadRegistersFromMemory x))
    else some (.error .instruction)
  else none   -- `unreachable!()` : a panic

/-- The documented opcode table, written out from the specification's
decoder contract (spec section 4.1): known nibble patterns only, a 12-bit
address formed from the low nibble of the first byte followed by the full
second byte, and register pairs formed from the low nibble of the first
byte and the high nibble of the second byte. Any pattern not enumerated
here is undocumented and must fail decoding. -/
def specTable (b0 b1 : Nat) : Option Instruction :=
  let n0 := b0 / 16       -- primary opcode class: high nibble of first byte
  let x := b0 % 16        -- low nibble of first byte: first register / address head
  let n2 := b1 / 16       -- high nibble of second byte: second register
  let n3 := b1 % 16       -- low nibble of second byte
  let adr := x * 256 + b1 -- 12-bit address: low nibble of first byte ++ second byte
  if n0 = 0x0 then
    if b0 = 0 ∧ b1 = 0xE0 then some .clearScreen
    else if b0 = 0 ∧ b1 = 0xEE then some .ret
    else none
  else if n0 = 0x1 then some (.jump adr)
  else if n0 = 0x2 then some (.call adr)
  else if n0 = 0x3 then some (.skipIfRegisterEqualsConstant x b1)
  else if n0 = 0x4 then some (.skipIfRegisterNotEqualsConstant x b1)
  else if n0 = 0x5 then
    if n3 = 0 then some (.skipIfRegisterEqualsRegister x n2) else none
  else if n0 = 0x6 then some (.setRegisterToValue x b1)
  else if n0 = 0x7 then some (.addValueToRegister x b1)
  else if n0 = 0x8 then
    if n3 = 0x0 then some (.setRegisterToValueOfRegister x n2)
    else if n3 = 0x1 then some (.binaryOR x n2)
    else if n3 = 0x2 then some (.binaryAND x n2)
    else if n3 = 0x3 then some (.binaryXOR x n2)
    else if n3 = 0x4 then some (.addRegisterToRegister x n2)
    else if n3 = 0x5 then some (.substractXMinusY x n2)
    else if n3 = 0x6 then some (.shiftRight x n2)
    else if n3 = 0x7 then some (.substractYMinusX x n2)
    else if n3 = 0xE then some (.shiftLeft x n2)
    else none
  else if n0 = 0x9 then
    if n3 = 0 then some (.skipIfRegisterNotEqualsRegister x n2) else none
  else if n0 = 0xA then some (.setIndexRegister adr)
  else if n0 = 0xB then some (.jumpWithOffset adr)
  else if n0 = 0xC then some (.random x b1)
  else if n0 = 0xD then some (.draw x n2 n3)
  else if n0 = 0xE then
    if b1 = 0x9E then some (.skipIfKeyIsPressed x)
    else if b1 = 0xA1 then some (.skipIfKeyIsNotPressed x)
    else none
  else if n0 = 0xF then
    if b1 = 0x07 then some (.getDelayTimerValue x)
    else if b1 = 0x0A then some (.getKey x)
    else if b1 = 0x15 then some (.setDelayTimer x)
    else if b1 = 0x18 then some (.setSoundTimer x)
    else if b1 = 0x1E then some (.addRegisterToIndexRegister x)
    else if b1 = 0x29 then some (.loadSprite x)
    else if b1 = 0x33 then some (.bcd x)
    else if b1 = 0x55 then some (.storeRegistersToMemory x)
    else if b1 = 0x65 then some (.loadRegistersFromMemory x)
    else none
  else none

example : Instruction.parse (0x12, 0x34) = some (.ok (.jump 0x234)) := by decide
example : Instruction.parse (0x5A, 0xA2) = some (.error .instruction) := by decide

/-- Interpret an entry of the documented opcode table as the decoder's
required outcome: a documented variant decodes to itself, an undocumented
pattern must fail with the unknown-instruction error (never a fallback). -/
def toExcept : Option Instruction → Except EmulatorError Instruction
  | some i => .ok i
  | none => .error .instruction

theorem and15_eq (a : Nat) : a &&& 15 = a % 16 := by
  have h := Nat.and_pow_two_sub_one_eq_mod a 4
  norm_num at h
  exact h

theorem shr4_eq (a : Nat) : a >>> 4 = a / 16 := by
  rw [Nat.shiftRight_eq_div_pow]

theorem shl8_or_eq (x b : Nat) (hb : b < 256) : (x <<< 8) ||| b = x * 256 + b := by
  rw [Nat.shiftLeft_eq]
  have hb2 : b < 2 ^ 8 := by norm_num; exact hb
  have h : (2 : Nat) ^ 8 * x + b = 2 ^ 8 * x ||| b :=
    Nat.mul_add_lt_is_or hb2 x
  calc x * 2 ^ 8 ||| b = 2 ^ 8 * x ||| b := by rw [Nat.mul_comm]
    _ = 2 ^ 8 * x + b := h.symm
    _ = x * 256 + b := by ring

theorem toExcept_some (i : Instruction) : toExcept (some i) = .ok i := rfl

theorem toExcept_none : toExcept none = .error .instruction := rfl

theorem toExcept_ite (c : Prop) [Decidable c] (a b : Option Instruction) :
    toExcept (if c then a else b) = if c then toExcept a else toExcept b :=
  apply_ite toExcept c a b

theorem some_ite {α : Type} (c : Prop) [Decidable c] (a b : α) :
    (some (if c then a else b) : Option α) = if c then some a else some b :=
  apply_ite some c a b

set_option maxHeartbeats 1600000 in
/-- **C1.** For every two-byte instruction word (all 65536 byte pairs),
`Instruction::parse` never panics (the `unreachable!()` arm, modelled as
`none`, is never taken), and it returns exactly the entry of the
documented opcode table `specTable` — the unique documented variant with
its operand fields extracted as specified (12-bit address = low nibble of
the first byte followed by the full second byte; register pair = low
nibble of the first byte and high nibble of the second byte) — or the
unknown-instruction error precisely on the nibble patterns the table does
not enumerate. -/
theorem c1_parse_total_and_matches_table (b0 b1 : Nat)
    (hb0 : b0 < 256) (hb1 : b1 < 256) :
    Instruction.parse (b0, b1) = some (toExcept (specTable b0 b1)) := by
  have h1 : b1 >>> 4 = b1 / 16 := shr4_eq b1
  have ha0 : b0 &&& 15 = b0 % 16 := and15_eq b0
  have ha1 : b1 &&& 15 = b1 % 16 := and15_eq b1
  have haddr : (b0 % 16) <<< 8 ||| b1 = b0 % 16 * 256 + b1 :=
    shl8_or_eq _ _ hb1
  have hshr : b0 >>> 4 = b0 / 16 := shr4_eq b0
  have hn : b0 / 16 = 0 ∨ b0 / 16 = 1 ∨ b0 / 16 = 2 ∨ b0 / 16 = 3 ∨ b0 / 16 = 4 ∨
      b0 / 16 = 5 ∨ b0 / 16 = 6 ∨ b0 / 16 = 7 ∨ b0 / 16 = 8 ∨ b0 / 16 = 9 ∨
      b0 / 16 = 10 ∨ b0 / 16 = 11 ∨ b0 / 16 = 12 ∨ b0 / 16 = 13 ∨ b0 / 16 = 14 ∨
      b0 / 16 = 15 := by omega
  rcases hn with h|h|h|h|h|h|h|h|h|h|h|h|h|h|h|h <;>
    simp only [Instruction.parse, specTable, extract_address, extract_registers,
      extract_second_nibble, hshr, h1, ha0, ha1, haddr, h] <;>
    norm_num <;>
    simp only [toExcept_ite, some_ite, toExcept_some, toExcept_none]
  split_ifs <;> simp_all

/-- Witness for C1: byte bounds are satisfiable, e.g. at the word
`0x1234`, where the table decodes to a jump to address `0x234`. -/
theorem c1_parse_total_and_matches_table_witness :
    (18 : Nat) < 256 ∧ (52 : Nat) < 256 ∧
      Instruction.parse (18, 52) = some (toExcept (specTable 18 52)) :=
  ⟨by decide, by decide,
    c1_parse_total_and_matches_table 18 52 (by decide) (by decide)⟩

/-! ## The execution engine (`emulator.rs`) -/

def WIDTH : Nat := 64

def HEIGHT : Nat := 32

def FPS : Nat := 60

def MEMORY_SIZE : Nat := 4096

def PROGRAM_START_ADDRESS : Nat := 512

def FONT_START_ADDRESS : Nat := 80

/-- `FONT.concat()`: the 16 five-byte glyphs laid out consecutively. -/
def FONT : List Nat :=
  [0xF0, 0x90, 0x90, 0x90, 0xF0,
   0x20, 0x60, 0x20, 0x20, 0x70,
   0xF0, 0x10, 0xF0, 0x80, 0xF0,
   0xF0, 0x10, 0xF0, 0x10, 0xF0,
   0x90, 0x90, 0xF0, 0x10, 0x10,
   0xF0, 0x80, 0xF0, 0x10, 0xF0,
   0xF0, 0x80, 0xF0, 0x90, 0xF0,
   0xF0, 0x10, 0x20, 0x40, 0x40,
   0xF0, 0x90, 0xF0, 0x90, 0xF0,
   0xF0, 0x90, 0xF0, 0x10, 0xF0,
   0xF0, 0x90, 0xF0, 0x90, 0x90,
   0xE0, 0x90, 0xE0, 0x90, 0xE0,
   0xF0, 0x80, 0x80, 0x80, 0xF0,
   0xE0, 0x90, 0x90, 0x90, 0xE0,
   0xF0, 0x80, 0xF0, 0x80, 0xF0,
   0xF0, 0x80, 0xF0, 0x80, 0x80]

/-- The 64×32 framebuffer `[[bool; 64]; 32]`, as a function from row and
column indices to the pixel state (only indices below 32 resp. 64 are ever
read or written by the engine). -/
def FB : Type := Nat → Nat → Bool

/-- `Key::from_num`: the `Key` enum is in bijection with the nibble values
0x0–0xF via `to_num`, so we represent keys by their numeric value directly;
`from_num` is then the identity on 0x0–0xF and `panic!()` (here `none`) on
anything larger. -/
def keyFromNum (n : Nat) : Option Nat :=
  if n ≤ 0xF then some n else none

/-- The full machine state of `struct Emulator`. The `HashSet<Key>` of
pressed keys is a duplicate-free list of key values; `rand_num_gen` is
modelled by the oracle field `rand` holding the byte the generator would
produce next; the `Beeper` collaborator is reduced to the on/off state
`beeperOn` that its `start`/`stop` commands control. -/
@[ext]
structure State where
  memory : Nat → Nat
  stack : List Nat
  registers : Nat → Nat
  i : Nat
  programCounter : Nat
  delayTimer : Nat
  soundTimer : Nat
  frameBuf : FB
  keysPressed : List Nat
  instCount : Nat
  ticksPerFrame : Nat
  timersUpdateInterval : Nat
  rand : Nat
  beeperOn : Bool
  redraw : Bool

/-- Pointwise update of a register file / memory function. -/
def updFn (f : Nat → Nat) (k v : Nat) : Nat → Nat :=
  fun j => if j = k then v else f j

/-- Pointwise update of the framebuffer. -/
def updFB (fb : FB) (y x : Nat) (v : Bool) : FB :=
  fun y' x' => if y' = y ∧ x' = x then v else fb y' x'

/-- `u8::wrapping_add` on byte values. -/
def wrapping_add (a b : Nat) : Nat := (a + b) % 256

/-- `u8::wrapping_sub` on byte values (`a`, `b` < 256 in every reachable
state, for which this equals subtraction modulo 256). -/
def wrapping_sub (a b : Nat) : Nat := (a + 256 - b) % 256

/-- `Emulator::write_to_memory`: bounds-checked block write; returns the
`MemoryAccess` error when the block would cross the 4096-byte limit. -/
def writeToMemory (s : State) (start_address : Nat) (buf : List Nat) :
    Except EmulatorError State :=
  if start_address + buf.length > MEMORY_SIZE then
    .error .memoryAccess
  else
    let newMem := (List.range buf.length).foldl
      (fun m j => updFn m (start_address + j) (buf.getD j 0)) s.memory
    .ok {s with memory := newMem}

/-- Inner column loop of `Emulator::draw_to_fb` for one sprite row: `c`
columns remain, the current column offset is `col`, `b` is the current
(shifted) sprite-row byte; the accumulated erased flag is threaded
through. -/
def drawRowAux (x y : Nat) : Nat → Nat → Nat → FB → Bool → FB × Bool
  | 0, _, _, fb, er => (fb, er)
  | c + 1, col, b, fb, er =>
    let b' := (b <<< 1) % 256
    if b &&& 128 ≠ 0 then
      if fb y (x + col) then
        drawRowAux x y c (col + 1) b' (updFB fb y (x + col) false) true
      else
        drawRowAux x y c (col + 1) b' (updFB fb y (x + col) true) er
    else
      drawRowAux x y c (col + 1) b' fb er

/-- Outer row loop of `Emulator::draw_to_fb`: `r` rows remain, the current
row index is `row`; each row reads `sprite[row]` and runs the column
loop. -/
def drawRowsAux (x y : Nat) (sprite : List Nat) (colIter : Nat) :
    Nat → Nat → FB → Bool → FB × Bool
  | 0, _, fb, er => (fb, er)
  | r + 1, row, fb, er =>
    let res := drawRowAux x (y + row) colIter 0 (sprite.getD row 0) fb er
    drawRowsAux x y sprite colIter r (row + 1) res.1 res.2

/-- `Emulator::draw_to_fb`: wrap the top-left corner into the 64x32 grid
(bit-masking with `WIDTH - 1` / `HEIGHT - 1`), clip the iteration ranges
at the right and bottom edges, and run the row loop. Returns the updated
framebuffer and whether any pixel was erased (toggled on to off). -/
def drawToFb (fb : FB) (x y : Nat) (sprite : List Nat) : FB × Bool :=
  let x := x &&& (WIDTH - 1)
  let y := y &&& (HEIGHT - 1)
  let row_iter := min (HEIGHT - y) sprite.length
  let col_iter := min (WIDTH - x) 8
  drawRowsAux x y sprite col_iter row_iter 0 fb false

/-- `Emulator::clear_screen`: every pixel off. -/
def clearScreenFB : FB := fun _ _ => false

/-- The instruction-dispatch `match` inside `Emulator::tick`, applied to a
state in which the program counter has already been advanced past the
fetched instruction. `none` models a Rust panic (out-of-bounds slice
indexing, or `Key::from_num` on a value above 0xF); `some (.error e)`
models `return Err(e)`; `some (.ok (redraw, s'))` models `Ok(redraw)`. -/
def execInstruction (instr : Instruction) (s : State) :
    Option (Except EmulatorError (Bool × State)) :=
  match instr with
  | .clearScreen => some (.ok (true, {s with frameBuf := clearScreenFB}))
  | .draw x y n =>
    let xCoord := s.registers x
    let yCoord := s.registers y
    if s.i + n ≤ MEMORY_SIZE then
      let sprite := (List.range n).map fun k => s.memory (s.i + k)
      let res := drawToFb s.frameBuf xCoord yCoord sprite
      let newRegs := updFn s.registers 0xF (if res.2 then 1 else 0)
      some (.ok (true, {s with frameBuf := res.1, registers := newRegs}))
    else none      -- the slice `self.memory[self.i..self.i + n]` panics
  | .jump adr => some (.ok (false, {s with programCounter := adr}))
  | .jumpWithOffset adr =>
    some (.ok (false, {s with programCounter := adr + s.registers 0}))
  | .call adr =>
    some (.ok (false, {s with stack := s.programCounter :: s.stack, programCounter := adr}))
  | .ret =>
    match s.stack with
    | [] => some (.error .stackUnderflow)
    | adr :: rest =>
      some (.ok (false, {s with programCounter := adr, stack := rest}))
  | .skipIfRegisterEqualsConstant x c =>
    some (.ok (false, if s.registers x = c then {s with programCounter := s.programCounter + 2} else s))
  | .skipIfRegisterNotEqualsConstant x c =>
    some (.ok (false, if s.registers x ≠ c then {s with programCounter := s.programCounter + 2} else s))
  | .skipIfRegisterEqualsRegister x y =>
    some (.ok (false, if s.registers x = s.registers y then {s with programCounter := s.programCounter + 2} else s))
  | .skipIfRegisterNotEqualsRegister x y =>
    some (.ok (false, if s.registers x ≠ s.registers y then {s with programCounter := s.programCounter + 2} else s))
  | .setRegisterToValue x v =>
    some (.ok (false, {s with registers := updFn s.registers x v}))
  | .setRegisterToValueOfRegister x y =>
    some (.ok (false, {s with registers := updFn s.registers x (s.registers y)}))
  | .binaryOR x y =>
    let newRegs := updFn s.registers x (s.registers x ||| s.registers y)
    some (.ok (false, {s with registers := newRegs}))
  | .binaryAND x y =>
    let newRegs := updFn s.registers x (s.registers x &&& s.registers y)
    some (.ok (false, {s with registers := newRegs}))
  | .binaryXOR x y =>
    let newRegs := updFn s.registers x (s.registers x ^^^ s.registers y)
    some (.ok (false, {s with registers := newRegs}))
  | .addValueToRegister x v =>
    let newRegs := updFn s.registers x (wrapping_add (s.registers x) v)
    some (.ok (false, {s with registers := newRegs}))
  | .addRegisterToRegister x y =>
    let sum := wrapping_add (s.registers x) (s.registers y)
    let r1 := updFn s.registers 0xF (if sum < s.registers x then 1 else 0)
    some (.ok (false, {s with registers := updFn r1 x sum}))
  | .substractXMinusY x y =>
    let flag := if s.registers x > s.registers y then 1 else 0
    let r1 := updFn s.registers x (wrapping_sub (s.registers x) (s.registers y))
    some (.ok (false, {s with registers := updFn r1 0xF flag}))
  | .substractYMinusX x y =>
    let flag := if s.registers y > s.registers x then 1 else 0
    let r1 := updFn s.registers x (wrapping_sub (s.registers y) (s.registers x))
    some (.ok (false, {s with registers := updFn r1 0xF flag}))
  | .shiftRight x y =>
    let flag := s.registers y &&& 1
    let r1 := updFn s.registers x (s.registers y >>> 1)
    some (.ok (false, {s with registers := updFn r1 0xF flag}))
  | .shiftLeft x y =>
    let flag := if s.registers y &&& 128 ≠ 0 then 1 else 0
    let r1 := updFn s.registers x ((s.registers y <<< 1) % 256)
    some (.ok (false, {s with registers := updFn r1 0xF flag}))
  | .skipIfKeyIsPressed x =>
    match keyFromNum (s.registers x) with
    | none => none     -- `Key::from_num` panics
    | some k =>
      some (.ok (false, if k ∈ s.keysPressed then {s with programCounter := s.programCounter + 2} else s))
  | .skipIfKeyIsNotPressed x =>
    match keyFromNum (s.registers x) with
    | none => none     -- `Key::from_num` panics
    | some k =>
      some (.ok (false, if k ∉ s.keysPressed then {s with programCounter := s.programCounter + 2} else s))
  | .getKey x =>
    if s.keysPressed.length = 1 then
      let newRegs := updFn s.registers x (s.keysPressed.headD 0)
      some (.ok (false, {s with registers := newRegs}))
    else
      some (.ok (false, {s with programCounter := s.programCounter - 2}))
  | .getDelayTimerValue x =>
    some (.ok (false, {s with registers := updFn s.registers x s.delayTimer}))
  | .setDelayTimer x =>
    some (.ok (false, {s with delayTimer := s.registers x}))
  | .setSoundTimer x =>
    let st := s.registers x
    let newBeeper := if st > 0 then true else s.beeperOn
    some (.ok (false, {s with soundTimer := st, beeperOn := newBeeper}))
  | .storeRegistersToMemory end_index =>
    match writeToMemory s s.i ((List.range (end_index + 1)).map s.registers) with
    | .error e => some (.error e)
    | .ok s' => some (.ok (false, s'))
  | .loadRegistersFromMemory end_index =>
    if s.i ≤ MEMORY_SIZE then
      -- `self.memory[self.i..]` has `MEMORY_SIZE - i` elements; `zip`
      -- stops at the shorter of the two sides.
      let count := min (MEMORY_SIZE - s.i) (end_index + 1)
      let newRegs := (List.range count).foldl
        (fun r j => updFn r j (s.memory (s.i + j))) s.registers
      some (.ok (false, {s with registers := newRegs}))
    else none      -- the slice `self.memory[self.i..]` panics
  | .setIndexRegister v => some (.ok (false, {s with i := v}))
  | .addRegisterToIndexRegister x =>
    some (.ok (false, {s with i := s.i + s.registers x}))
  | .loadSprite x =>
    some (.ok (false, {s with i := FONT_START_ADDRESS + s.registers x * 5}))
  | .bcd x =>
    let n := [s.registers x / 100, s.registers x % 100 / 10, s.registers x % 10]
    match writeToMemory s s.i n with
    | .error e => some (.error e)
    | .ok s' => some (.ok (false, s'))
  | .random x c =>
    some (.ok (false, {s with registers := updFn s.registers x (s.rand &&& c)}))

/-- `Emulator::tick`: fetch the two instruction bytes at the program
counter (panicking — `none` — if the fetch crosses the memory limit),
advance the program counter, decode, and dispatch. -/
def tick (s : State) : Option (Except EmulatorError (Bool × State)) :=
  if s.programCounter + 1 < MEMORY_SIZE then
    let instruction_bytes := (s.memory s.programCounter, s.memory (s.programCounter + 1))
    let s1 := {s with programCounter := s.programCounter + 2}
    match Instruction.parse instruction_bytes with
    | none => none
    | some (.error e) => some (.error e)
    | some (.ok instr) => execInstruction instr s1
  else none    -- `self.memory[self.program_counter]` indexing panics

/-- `Emulator::update_timers`: saturating decrement of both timers; the
beeper is stopped when the sound timer is already zero. -/
def updateTimers (s : State) : State :=
  let s1 := if s.soundTimer > 0 then {s with soundTimer := s.soundTimer - 1} else {s with beeperOn := false}
  if s1.delayTimer > 0 then {s1 with delayTimer := s1.delayTimer - 1} else s1

/-- One iteration of the `run_frame` loop body: a tick, then the
instruction counter (a `u8`, hence the `% 256`) is incremented and, when
it reaches the timer-update interval, the timers are updated and the
counter reset. -/
def frameStep (s : State) : Option (Except EmulatorError (Bool × State)) :=
  match tick s with
  | none => none
  | some (.error e) => some (.error e)
  | some (.ok (r, t)) =>
    let t1 := {t with instCount := (t.instCount + 1) % 256}
    if t1.instCount = t1.timersUpdateInterval then
      some (.ok (r, {updateTimers t1 with instCount := 0}))
    else
      some (.ok (r, t1))

/-- The `for _ in 0..self.ticks_per_frame` loop of `Emulator::run_frame`,
accumulating the redraw flag across iterations. -/
def frameLoop : Nat → Bool → State → Option (Except EmulatorError (Bool × State))
  | 0, redraw, s => some (.ok (redraw, s))
  | n + 1, redraw, s =>
    match frameStep s with
    | none => none
    | some (.error e) => some (.error e)
    | some (.ok (r, s')) => frameLoop n (r || redraw) s'

/-- `Emulator::run_frame`: run `ticks_per_frame` loop iterations, then
store the accumulated redraw flag (only on success — the `?` operator
returns the first error early). -/
def runFrame (s : State) : Option (Except EmulatorError State) :=
  match frameLoop s.ticksPerFrame false s with
  | none => none
  | some (.error e) => some (.error e)
  | some (.ok (r, s')) => some (.ok {s' with redraw := r})

/-- Models `(c as f64 / 60.0).round() as u8` for `c < 65536` (`u16`).
Every `u16` value is exact in `f64`; the quotient `c / 60` lies within
`2^-42` of the rational `c/60`, which is at distance at least `1/120`
from any half-integer it does not equal exactly, and equals a
half-integer (exactly representable here) only when `c ≡ 30 (mod 60)`;
`f64::round` rounds those halves away from zero. Hence the rounded value
is `⌊(c + 30) / 60⌋`. The `as u8` cast of a nonnegative float saturates
at 255. -/
def roundDiv60SatU8 (c : Nat) : Nat := min ((c + 30) / 60) 255

/-- The freshly initialized state built by `Emulator::new` before the
program and font are copied in. -/
def initState (clock_speed : Nat) : State := {
  memory := fun _ => 0
  stack := []
  registers := fun _ => 0
  i := 0
  programCounter := PROGRAM_START_ADDRESS
  delayTimer := 0
  soundTimer := 0
  frameBuf := fun _ _ => false
  keysPressed := []
  instCount := 0
  ticksPerFrame := roundDiv60SatU8 clock_speed
  timersUpdateInterval := roundDiv60SatU8 clock_speed
  rand := 0
  beeperOn := false
  redraw := false }

/-- `Emulator::new`: zeroed state at the program origin, tick/timer
ratios derived from the clock speed, then the program and the font are
copied into memory (the program write fails if it does not fit). -/
def newEmulator (clock_speed : Nat) (program : List Nat) :
    Except EmulatorError State :=
  match writeToMemory (initState clock_speed) PROGRAM_START_ADDRESS program with
  | .error err => .error err
  | .ok e1 =>
    match writeToMemory e1 FONT_START_ADDRESS FONT with
    | .error err => .error err
    | .ok e2 => .ok e2

/-! ## Bridges between the source's bitwise formulas and arithmetic -/

theorem and1_eq (a : Nat) : a &&& 1 = a % 2 := Nat.and_one_is_mod a

theorem shr1_eq (a : Nat) : a >>> 1 = a / 2 := by
  rw [Nat.shiftRight_eq_div_pow]

theorem shl1_eq (a : Nat) : a <<< 1 = a * 2 := by
  rw [Nat.shiftLeft_eq]

set_option maxRecDepth 10000 in
theorem and128_ne_zero_iff (b : Nat) (hb : b < 256) :
    (b &&& 128 ≠ 0) ↔ 128 ≤ b := by
  have h : ∀ c < 256, ((c &&& 128 ≠ 0) ↔ 128 ≤ c) := by decide
  exact h b hb

/-! ## C3/C4/C9: arithmetic, shifts, and the flag register -/

/-- An all-zero machine state, used as a concrete evaluation point. -/
def zeroState : State := {
  memory := fun _ => 0
  stack := []
  registers := fun _ => 0
  i := 0
  programCounter := 512
  delayTimer := 0
  soundTimer := 0
  frameBuf := fun _ _ => false
  keysPressed := []
  instCount := 0
  ticksPerFrame := 0
  timersUpdateInterval := 0
  rand := 0
  beeperOn := false
  redraw := false }

/-- The add half of claim C3, as stated, at one input: the wrapped sum is
stored in `Vx` and the flag register receives the carry computed from the
pre-operation operands. -/
def addClaimAt (s : State) (x y : Nat) : Prop :=
  ∃ t, execInstruction (.addRegisterToRegister x y) s = some (.ok (false, t)) ∧
    t.registers x = (s.registers x + s.registers y) % 256 ∧
    t.registers 0xF = (if 255 < s.registers x + s.registers y then 1 else 0)

/-- The subtract half of claim C3, as stated, at one input: the wrapped
difference is stored in `Vx` and the flag register receives NOT-borrow
(1 iff pre-operation `Vx > Vy`). -/
def subClaimAt (s : State) (x y : Nat) : Prop :=
  ∃ t, execInstruction (.substractXMinusY x y) s = some (.ok (false, t)) ∧
    t.registers x = (s.registers x + 256 - s.registers y) % 256 ∧
    t.registers 0xF = (if s.registers y < s.registers x then 1 else 0)

/-- Claim C4, as stated, at one input: both shifts read the second named
register, write its shifted value into the first, and store the shifted-out
bit (low bit for right shift, high bit for left shift) in the flag
register. -/
def shiftClaimAt (s : State) (x y : Nat) : Prop :=
  (∃ t, execInstruction (.shiftRight x y) s = some (.ok (false, t)) ∧
    t.registers x = s.registers y / 2 ∧
    t.registers 0xF = s.registers y % 2) ∧
  (∃ t, execInstruction (.shiftLeft x y) s = some (.ok (false, t)) ∧
    t.registers x = (s.registers y * 2) % 256 ∧
    t.registers 0xF = (if 128 ≤ s.registers y then 1 else 0))

/-- **C9.** When register 15 (VF) is the destination `x`: subtract X−Y,
subtract Y−X, shift right and shift left leave VF holding the flag value
(the flag write comes after the result write), whereas add leaves VF
holding the wrapped sum — the carry flag is overwritten and lost. -/
theorem c9_flag_wins_except_add (s : State) (y : Nat)
    (hby : s.registers y < 256) :
    (∃ t, execInstruction (.addRegisterToRegister 0xF y) s = some (.ok (false, t)) ∧
      t.registers 0xF = (s.registers 0xF + s.registers y) % 256) ∧
    (∃ t, execInstruction (.substractXMinusY 0xF y) s = some (.ok (false, t)) ∧
      t.registers 0xF = (if s.registers y < s.registers 0xF then 1 else 0)) ∧
    (∃ t, execInstruction (.substractYMinusX 0xF y) s = some (.ok (false, t)) ∧
      t.registers 0xF = (if s.registers 0xF < s.registers y then 1 else 0)) ∧
    (∃ t, execInstruction (.shiftRight 0xF y) s = some (.ok (false, t)) ∧
      t.registers 0xF = s.registers y % 2) ∧
    (∃ t, execInstruction (.shiftLeft 0xF y) s = some (.ok (false, t)) ∧
      t.registers 0xF = (if 128 ≤ s.registers y then 1 else 0)) := by
  refine ⟨⟨_, rfl, ?_⟩, ⟨_, rfl, ?_⟩, ⟨_, rfl, ?_⟩, ⟨_, rfl, ?_⟩, ⟨_, rfl, ?_⟩⟩ <;>
    simp [execInstruction, updFn, wrapping_add, wrapping_sub, and1_eq,
      and128_ne_zero_iff _ hby]

/-- Witness for C9: the byte bound on `Vy` is satisfiable, e.g. in a state
whose registers are all zero. -/
theorem c9_flag_wins_except_add_witness :
    zeroState.registers 0 < 256 ∧
      (∃ t, execInstruction (.addRegisterToRegister 0xF 0) zeroState =
          some (.ok (false, t)) ∧
        t.registers 0xF = (zeroState.registers 0xF + zeroState.registers 0) % 256) :=
  ⟨by decide, (c9_flag_wins_except_add zeroState 0 (by decide)).1⟩

/-- Projection of a successful (non-panicking, non-erroring) instruction
execution to one register of the resulting state. -/
def execResultRegister (instr : Instruction) (s : State) (j : Nat) : Option Nat :=
  match execInstruction instr s with
  | some (.ok (_, t)) => some (t.registers j)
  | _ => none

theorem addClaimAt_flag {s : State} {x y : Nat} (h : addClaimAt s x y) :
    execResultRegister (.addRegisterToRegister x y) s 0xF =
      some (if 255 < s.registers x + s.registers y then 1 else 0) := by
  obtain ⟨t, ht, _, hf⟩ := h
  simp [execResultRegister, ht, hf]

theorem shiftClaimAt_right_result {s : State} {x y : Nat} (h : shiftClaimAt s x y) :
    execResultRegister (.shiftRight x y) s x = some (s.registers y / 2) := by
  obtain ⟨⟨t, ht, hx, _⟩, _⟩ := h
  simp [execResultRegister, ht, hx]

/-- State for the C3 counterexample: `VF = 0xFF`, `V1 = 0x01`. -/
def c3State : State :=
  {zeroState with registers := fun j => if j = 15 then 255 else if j = 1 then 1 else 0}

/-- State for the C3/C4 witnesses: `V0 = 0xFF`, `V1 = 0x01`. -/
def c3wState : State :=
  {zeroState with registers := fun j => if j = 0 then 255 else if j = 1 then 1 else 0}

/-- State for the C4 counterexample: `V0 = 4`, all other registers 0. -/
def c4State : State :=
  {zeroState with registers := fun j => if j = 0 then 4 else 0}

/-- **C3, counterexample.** The claim quantifies over *every* pair of
register indices, but at `x = 0xF` (with `VF = 0xFF`, `V1 = 0x01`) the
executed add leaves `VF = 0x00` (the wrapped sum), while the claim
requires the flag register to receive the carry 1: the claim as stated is
false at this input. -/
theorem c3_add_sub_counterexample : ¬ addClaimAt c3State 15 1 :=
  fun h => absurd (addClaimAt_flag h) (by decide)

/-- **C3 (amended).** For register indices `x ≠ 0xF`: add stores
`Vx + Vy mod 256` into `Vx` with VF receiving the carry computed from the
pre-operation operands (1 iff the true sum exceeds 255), and subtract
stores `Vx − Vy mod 256` into `Vx` with VF receiving NOT-borrow (1 iff
pre-operation `Vx > Vy`). When `x = 0xF`, the add leaves VF holding the
wrapped sum and the subtract leaves VF holding the NOT-borrow flag. -/
theorem c3_add_sub_amended (s : State) (x y : Nat) (hx : x < 16) (hy : y < 16)
    (hbx : s.registers x < 256) (hby : s.registers y < 256) :
    (x ≠ 0xF → addClaimAt s x y) ∧
    (x ≠ 0xF → subClaimAt s x y) ∧
    (∃ t, execInstruction (.addRegisterToRegister 0xF y) s = some (.ok (false, t)) ∧
      t.registers 0xF = (s.registers 0xF + s.registers y) % 256) ∧
    (∃ t, execInstruction (.substractXMinusY 0xF y) s = some (.ok (false, t)) ∧
      t.registers 0xF = (if s.registers y < s.registers 0xF then 1 else 0)) := by
  have hiff : ((s.registers x + s.registers y) % 256 < s.registers x) ↔
      (255 < s.registers x + s.registers y) := by omega
  refine ⟨fun hxne => ?_, fun hxne => ?_, ?_, ?_⟩
  · refine ⟨_, rfl, ?_, ?_⟩ <;>
      simp [updFn, wrapping_add, hxne, Ne.symm hxne, hiff]
  · refine ⟨_, rfl, ?_, ?_⟩ <;>
      simp [updFn, wrapping_sub, hxne, Ne.symm hxne]
  · exact ⟨_, rfl, by simp [updFn, wrapping_add]⟩
  · exact ⟨_, rfl, by simp [updFn, wrapping_sub]⟩

/-- Witness for C3 (amended), at the specification's own example
`Vx = 0xFF, Vy = 0x01`: result `0x00`, flag 1. -/
theorem c3_add_sub_amended_witness :
    (0 : Nat) < 16 ∧ (1 : Nat) < 16 ∧
    c3wState.registers 0 < 256 ∧ c3wState.registers 1 < 256 ∧
    ((0 : Nat) ≠ 0xF → addClaimAt c3wState 0 1) :=
  ⟨by decide, by decide, by decide, by decide,
    (c3_add_sub_amended c3wState 0 1 (by decide) (by decide)
      (by decide) (by decide)).1⟩

/-- **C4, counterexample.** The claim quantifies over every pair of
register indices, but at `x = 0xF`, `y = 0` with `V0 = 4` the executed
right shift leaves `VF = 0` (the flag write wins), while the claim
requires `Vx = VF` to receive the shifted value 2: the claim as stated is
false at this input. -/
theorem c4_shift_counterexample : ¬ shiftClaimAt c4State 15 0 :=
  fun h => absurd (shiftClaimAt_right_result h) (by decide)

/-- **C4 (amended).** For register indices `x ≠ 0xF` (including `x = y`):
the shifts read the second named register `Vy`, write its value shifted by
one bit into `Vx`, and store the shifted-out bit (`Vy`'s low bit for right
shift, high bit for left shift) into VF. When `x = 0xF`, the flag write
wins: VF holds the shifted-out bit, not the shifted value. -/
theorem c4_shift_amended (s : State) (x y : Nat) (hx : x < 16) (hy : y < 16)
    (hby : s.registers y < 256) :
    (x ≠ 0xF → shiftClaimAt s x y) ∧
    (∃ t, execInstruction (.shiftRight 0xF y) s = some (.ok (false, t)) ∧
      t.registers 0xF = s.registers y % 2) ∧
    (∃ t, execInstruction (.shiftLeft 0xF y) s = some (.ok (false, t)) ∧
      t.registers 0xF = (if 128 ≤ s.registers y then 1 else 0)) := by
  refine ⟨fun hxne => ?_, ?_, ?_⟩
  · refine ⟨⟨_, rfl, ?_, ?_⟩, ⟨_, rfl, ?_, ?_⟩⟩ <;>
      simp [updFn, hxne, Ne.symm hxne, and1_eq, shr1_eq, shl1_eq,
        and128_ne_zero_iff _ hby]
  · exact ⟨_, rfl, by simp [updFn, and1_eq]⟩
  · exact ⟨_, rfl, by simp [updFn, and128_ne_zero_iff _ hby]⟩

/-- Witness for C4 (amended): at `x = 0, y = 1` with `V1 = 1` the right
shift writes `V0 = 0` and `VF = 1`. -/
theorem c4_shift_amended_witness :
    (0 : Nat) < 16 ∧ (1 : Nat) < 16 ∧ c3wState.registers 1 < 256 ∧
    ((0 : Nat) ≠ 0xF → shiftClaimAt c3wState 0 1) :=
  ⟨by decide, by decide, by decide,
    (c4_shift_amended c3wState 0 1 (by decide) (by decide) (by decide)).1⟩

/-! ## C6/C7/C10: key handling, stack discipline, repeated ticks -/

/-- `n` consecutive calls of `Emulator::tick`, stopping at the first panic
or error (the redraw flags are not accumulated here — this is the bare
iteration of the fetch-decode-execute cycle). -/
def tickIter : Nat → State → Option (Except EmulatorError State)
  | 0, s => some (.ok s)
  | n + 1, s =>
    match tick s with
    | none => none
    | some (.error e) => some (.error e)
    | some (.ok (_, t)) => tickIter n t

/-- Projection of a successful tick to one register of the resulting
state. -/
def tickResultRegister (s : State) (j : Nat) : Option Nat :=
  match tick s with
  | some (.ok (_, t)) => some (t.registers j)
  | _ => none

/-- One tick on a state whose fetched word decodes to the given
instruction: the fetch advance of the program counter followed by the
dispatch of `Emulator::tick`. -/
def stepInstr (instr : Instruction) (s : State) :
    Option (Except EmulatorError (Bool × State)) :=
  execInstruction instr {s with programCounter := s.programCounter + 2}

/-- Run a sequence of instructions through `stepInstr`, stopping at the
first panic or error. -/
def runSeq : List Instruction → State → Option (Except EmulatorError State)
  | [], s => some (.ok s)
  | instr :: rest, s =>
    match stepInstr instr s with
    | none => none
    | some (.error e) => some (.error e)
    | some (.ok (_, t)) => runSeq rest t

theorem runSeq_append (l1 l2 : List Instruction) (s : State) :
    runSeq (l1 ++ l2) s =
      match runSeq l1 s with
      | none => none
      | some (.error e) => some (.error e)
      | some (.ok t) => runSeq l2 t := by
  induction l1 generalizing s with
  | nil => simp [runSeq]
  | cons instr rest ih =>
    simp only [List.cons_append, runSeq]
    cases stepInstr instr s with
    | none => rfl
    | some r =>
      cases r with
      | error e => rfl
      | ok p => exact ih p.2

theorem runSeq_cons_ok {instr : Instruction} {s : State} {r : Bool} {t : State}
    (h : stepInstr instr s = some (.ok (r, t))) (l : List Instruction) :
    runSeq (instr :: l) s = runSeq l t := by
  simp [runSeq, h]

theorem calls_then_returns (adrs : List Nat) (a : Nat) :
    ∀ s : State,
      runSeq (((a :: adrs).map Instruction.call) ++
          List.replicate (a :: adrs).length .ret) s =
        some (.ok {s with programCounter := s.programCounter + 2}) := by
  induction adrs generalizing a with
  | nil => intro s; rfl
  | cons b rest ih =>
    intro s
    have hsplit : ((a :: b :: rest).map Instruction.call) ++
        List.replicate (a :: b :: rest).length Instruction.ret =
        Instruction.call a ::
          ((((b :: rest).map Instruction.call) ++
            List.replicate (b :: rest).length Instruction.ret) ++
            [Instruction.ret]) := by
      simp only [List.map_cons, List.length_cons, List.cons_append,
        List.append_assoc]
      rw [← List.replicate_succ']
    rw [hsplit]
    have hcall : stepInstr (Instruction.call a) s =
        some (.ok (false, {s with
          stack := (s.programCounter + 2) :: s.stack, programCounter := a})) := rfl
    rw [runSeq_cons_ok hcall, runSeq_append, ih b]
    rfl

/-- **C7.** For every `N ≥ 1` (list of call targets `adrs ≠ []`), starting
from any state with an empty call stack, executing the `N` nested Call
instructions followed by `N` Return instructions leaves the program
counter at the address immediately following the first Call (each Call
pushes the post-advance return address, each Return pops the most recent
one) and the stack empty again; executing one further Return on that
state fails with the StackUnderflow error — it is never silently
ignored. -/
theorem c7_stack_discipline (s : State) (adrs : List Nat)
    (hstack : s.stack = []) (hne : adrs ≠ []) :
    runSeq ((adrs.map Instruction.call) ++
        List.replicate adrs.length Instruction.ret) s =
      some (.ok {s with programCounter := s.programCounter + 2}) ∧
    stepInstr Instruction.ret {s with programCounter := s.programCounter + 2} =
      some (.error .stackUnderflow) := by
  constructor
  · match adrs, hne with
    | a :: rest, _ => exact calls_then_returns rest a s
  · show execInstruction Instruction.ret _ = _
    simp [execInstruction, hstack]

/-- Witness for C7: one call to address 0x300 followed by one return,
from the freshly constructed (empty-stack) zero state. -/
theorem c7_stack_discipline_witness :
    zeroState.stack = [] ∧ ([0x300] : List Nat) ≠ [] ∧
    (runSeq (([0x300] : List Nat).map Instruction.call ++
        List.replicate ([0x300] : List Nat).length Instruction.ret) zeroState =
      some (.ok {zeroState with programCounter := zeroState.programCounter + 2}) ∧
    stepInstr Instruction.ret
        {zeroState with programCounter := zeroState.programCounter + 2} =
      some (.error .stackUnderflow)) :=
  ⟨rfl, by simp, c7_stack_discipline zeroState [0x300] rfl (by simp)⟩

/-- State for the C6 witness: an FX0A (wait for key into `V3`) word at the
program origin, no key pressed. -/
def c6State : State := {zeroState with
  memory := fun a => if a = 512 then 0xF3 else if a = 513 then 0x0A else 0}

/-- State for the C10 witness: an E19E (skip if key `V1` pressed) word at
the program origin, with `V1 = 200`. -/
def c10State : State := {zeroState with
  memory := fun a => if a = 512 then 0xE1 else if a = 513 then 0x9E else 0
  registers := fun j => if j = 1 then 200 else 0}

/-- **C6.** When the current instruction is wait-for-key (FX0A): with
exactly one key pressed, a tick stores that key's value into `Vx` and the
program counter advances by one instruction width; with zero or several
keys pressed, the tick returns the state entirely unchanged (the program
counter is rewound over the fetch advance), so arbitrarily many repeated
ticks leave the program counter — indeed the whole state — unchanged. -/
theorem c6_wait_for_key (s : State) (x : Nat) (hx : x < 16)
    (hpc : s.programCounter + 1 < 4096)
    (hb0 : s.memory s.programCounter = 0xF0 + x)
    (hb1 : s.memory (s.programCounter + 1) = 0x0A) :
    (∀ k, s.keysPressed = [k] →
      ∃ t, tick s = some (.ok (false, t)) ∧ t.registers x = k ∧
        t.programCounter = s.programCounter + 2 ∧
        ∀ j, j ≠ x → t.registers j = s.registers j) ∧
    (s.keysPressed.length ≠ 1 →
      tick s = some (.ok (false, s)) ∧ ∀ n, tickIter n s = some (.ok s)) := by
  have hdiv : (0xF0 + x) / 16 = 15 := by omega
  have hmod : (0xF0 + x) % 16 = x := by omega
  have hparse : Instruction.parse
      (s.memory s.programCounter, s.memory (s.programCounter + 1)) =
      some (.ok (.getKey x)) := by
    rw [hb0, hb1]
    simp [Instruction.parse, extract_second_nibble, shr4_eq, and15_eq, hdiv, hmod]
  have htick : tick s =
      execInstruction (.getKey x) {s with programCounter := s.programCounter + 2} := by
    simp [tick, MEMORY_SIZE, hpc, hparse]
  constructor
  · intro k hk
    have hexec : tick s = some (.ok (false, {s with
        programCounter := s.programCounter + 2,
        registers := updFn s.registers x k})) := by
      rw [htick]
      simp [execInstruction, hk]
    exact ⟨_, hexec, by simp [updFn], by simp,
      fun j hj => by simp [updFn, hj]⟩
  · intro hne
    have hexec : tick s = some (.ok (false, s)) := by
      rw [htick]
      simp [execInstruction, hne]
    refine ⟨hexec, ?_⟩
    intro n
    induction n with
    | zero => rfl
    | succ m ihm => simp [tickIter, hexec, ihm]

/-- Witness for C6: a concrete in-bounds FX0A state — register 3 as the
destination, with no key pressed the state is a fixed point of `tick`. -/
theorem c6_wait_for_key_witness :
    (3 : Nat) < 16 ∧ c6State.programCounter + 1 < 4096 ∧
    c6State.memory c6State.programCounter = 0xF0 + 3 ∧
    c6State.memory (c6State.programCounter + 1) = 0x0A ∧
    (c6State.keysPressed.length ≠ 1 →
      tick c6State = some (.ok (false, c6State)) ∧
      ∀ n, tickIter n c6State = some (.ok c6State)) :=
  ⟨by decide, by decide, by decide, by decide,
    (c6_wait_for_key c6State 3 (by decide) (by decide) (by decide) (by decide)).2⟩

/-- **C10.** Skip-if-key (EX9E/EXA1) is only total when `Vx ≤ 0xF`: if
`Vx > 15`, `Key::from_num` panics, so the tick neither completes nor
surfaces an `EmulatorError` (modelled as `tick s = none`); if `Vx ≤ 15`
the tick completes normally. -/
theorem c10_skip_key_panics (s : State) (x : Nat) (hx : x < 16)
    (hpc : s.programCounter + 1 < 4096)
    (hb0 : s.memory s.programCounter = 0xE0 + x)
    (hb1 : s.memory (s.programCounter + 1) = 0x9E ∨
      s.memory (s.programCounter + 1) = 0xA1) :
    (15 < s.registers x → tick s = none) ∧
    (s.registers x ≤ 15 → (tick s).isSome = true) := by
  have hdiv : (0xE0 + x) / 16 = 14 := by omega
  have hmod : (0xE0 + x) % 16 = x := by omega
  rcases hb1 with hb1 | hb1
  · have hparse : Instruction.parse
        (s.memory s.programCounter, s.memory (s.programCounter + 1)) =
        some (.ok (.skipIfKeyIsPressed x)) := by
      rw [hb0, hb1]
      simp [Instruction.parse, extract_second_nibble, shr4_eq, and15_eq, hdiv, hmod]
    have htick : tick s = execInstruction (.skipIfKeyIsPressed x)
        {s with programCounter := s.programCounter + 2} := by
      simp [tick, MEMORY_SIZE, hpc, hparse]
    constructor
    · intro hgt
      rw [htick]
      simp [execInstruction, keyFromNum, show ¬ (s.registers x ≤ 15) by omega]
    · intro hle
      rw [htick]
      simp [execInstruction, keyFromNum, hle]
  · have hparse : Instruction.parse
        (s.memory s.programCounter, s.memory (s.programCounter + 1)) =
        some (.ok (.skipIfKeyIsNotPressed x)) := by
      rw [hb0, hb1]
      simp [Instruction.parse, extract_second_nibble, shr4_eq, and15_eq, hdiv, hmod]
    have htick : tick s = execInstruction (.skipIfKeyIsNotPressed x)
        {s with programCounter := s.programCounter + 2} := by
      simp [tick, MEMORY_SIZE, hpc, hparse]
    constructor
    · intro hgt
      rw [htick]
      simp [execInstruction, keyFromNum, show ¬ (s.registers x ≤ 15) by omega]
    · intro hle
      rw [htick]
      simp [execInstruction, keyFromNum, hle]

/-- Witness for C10: a concrete EX9E state whose `V1` holds 200 > 15 — the
tick panics rather than returning an error. -/
theorem c10_skip_key_panics_witness :
    (1 : Nat) < 16 ∧ c10State.programCounter + 1 < 4096 ∧
    c10State.memory c10State.programCounter = 0xE0 + 1 ∧
    (c10State.memory (c10State.programCounter + 1) = 0x9E ∨
      c10State.memory (c10State.programCounter + 1) = 0xA1) ∧
    (15 < c10State.registers 1 → tick c10State = none) :=
  ⟨by decide, by decide, by decide, by decide,
    (c10_skip_key_panics c10State 1 (by decide) (by decide) (by decide)
      (Or.inl (by decide))).1⟩

/-! ## C2: out-of-bounds accesses during a tick -/

/-- State for C2: an FX65 (load `V0..VF` from memory) word at the program
origin with the index register at 4091 — the 16-byte load would cross the
4096-byte limit (it needs 4091..4106). The memory from 4091 on holds 7. -/
def c2LoadState : State := {zeroState with
  memory := fun a => if a = 512 then 0xFF else if a = 513 then 0x65
    else if 4091 ≤ a then 7 else 0
  i := 4091}

/-- State for C2: the program counter at 4095, so the two-byte fetch needs
byte 4096 — one past the end of memory. -/
def c2FetchState : State := {zeroState with programCounter := 4095}

/-- State for C2: a D00A (draw a 10-row sprite) word at the program
origin with the index register at 4090 — the sprite read 4090..4099
crosses the 4096-byte limit. -/
def c2DrawState : State := {zeroState with
  memory := fun a => if a = 512 then 0xD0 else if a = 513 then 0x0A else 0
  i := 4090}

/-- **C2 (refuted by the code).** The claim says every memory access that
would cross the 4096-byte limit makes `tick` return the
OutOfBoundsMemoryAccess error, never a silent truncation and never a
panic. The code disagrees on three of the four access kinds:
the FX65 register load at `i = 4091` silently truncates (the `zip` stops
after the 5 remaining bytes: `V0..V4` are loaded, `V5..VF` untouched, and
the tick returns `Ok` — first three conjuncts); the program fetch at
`pc = 4095` panics instead of returning an error (fourth conjunct,
`none` = panic); and the Draw sprite read at `i = 4090` with `n = 10`
panics as well (fifth conjunct). Only the write paths (FX55 and BCD,
which go through `write_to_memory`) return the error. -/
theorem c2_oob_not_always_error :
    tickResultRegister c2LoadState 0 = some 7 ∧
    tickResultRegister c2LoadState 4 = some 7 ∧
    tickResultRegister c2LoadState 5 = some 0 ∧
    tick c2FetchState = none ∧
    tick c2DrawState = none :=
  ⟨rfl, rfl, rfl, rfl, rfl⟩

/-! ## C8: timing configuration and cadence -/

/-- The specification's `round(clock_speed / 60)` with halves rounded away
from zero (the behaviour of `f64::round` on the nonnegative quotient). -/
def specRound60 (c : Nat) : Nat := (c + 30) / 60

/-- `FrameSteps n s t`: state `t` is reached from `s` by exactly `n`
successful iterations of the `run_frame` loop body (each containing
exactly one tick). -/
inductive FrameSteps : Nat → State → State → Prop where
  | zero (s : State) : FrameSteps 0 s s
  | succ {n : Nat} {s s' s'' : State} {r : Bool}
      (h : frameStep s = some (.ok (r, s')))
      (hrest : FrameSteps n s' s'') : FrameSteps (n + 1) s s''

theorem frameLoop_steps : ∀ (n : Nat) (r : Bool) (s : State) {rd : Bool}
    {t : State}, frameLoop n r s = some (.ok (rd, t)) → FrameSteps n s t := by
  intro n
  induction n with
  | zero =>
    intro r s rd t h
    simp only [frameLoop, Option.some.injEq, Except.ok.injEq, Prod.mk.injEq] at h
    rw [← h.2]
    exact .zero s
  | succ m ih =>
    intro r s rd t h
    simp only [frameLoop] at h
    split at h
    · exact absurd h (by simp)
    · exact absurd h (by simp)
    · next r' s' heq => exact .succ heq (ih _ _ h)

theorem runFrame_steps {s u : State} (h : runFrame s = some (.ok u)) :
    ∃ t, FrameSteps s.ticksPerFrame s t ∧ u = {t with redraw := u.redraw} := by
  unfold runFrame at h
  split at h
  · exact absurd h (by simp)
  · exact absurd h (by simp)
  · next rd t heq =>
    simp only [Option.some.injEq, Except.ok.injEq] at h
    exact ⟨t, frameLoop_steps _ _ _ heq, by rw [← h]⟩

theorem updateTimers_saturating (s : State) :
    (updateTimers s).delayTimer = s.delayTimer - 1 ∧
    (updateTimers s).soundTimer = s.soundTimer - 1 := by
  simp only [updateTimers]
  by_cases h1 : s.soundTimer > 0 <;> by_cases h2 : s.delayTimer > 0 <;>
    simp [h1, h2] <;> omega

theorem writeToMemory_ok_timing {s : State} {start : Nat} {buf : List Nat}
    {t : State} (h : writeToMemory s start buf = .ok t) :
    t.instCount = s.instCount ∧ t.ticksPerFrame = s.ticksPerFrame ∧
    t.timersUpdateInterval = s.timersUpdateInterval := by
  unfold writeToMemory at h
  split at h
  · simp at h
  · simp only [Except.ok.injEq] at h
    subst h
    exact ⟨rfl, rfl, rfl⟩

theorem execInstruction_preserves_timing (instr : Instruction) (s : State)
    {r : Bool} {t : State} (h : execInstruction instr s = some (.ok (r, t))) :
    t.instCount = s.instCount ∧ t.ticksPerFrame = s.ticksPerFrame ∧
    t.timersUpdateInterval = s.timersUpdateInterval := by
  cases instr <;>
    first
    | (simp only [execInstruction] at h
       split at h
       · simp_all
       · rename_i s' hw
         simp only [Option.some.injEq, Except.ok.injEq, Prod.mk.injEq] at h
         obtain ⟨-, rfl⟩ := h
         exact writeToMemory_ok_timing hw)
    | (simp only [execInstruction] at h <;>
       (repeat' split at h) <;>
       (try obtain ⟨h1, rfl⟩ := h) <;>
       simp_all)

theorem tick_preserves_timing {s : State} {r : Bool} {t : State}
    (h : tick s = some (.ok (r, t))) :
    t.instCount = s.instCount ∧ t.ticksPerFrame = s.ticksPerFrame ∧
    t.timersUpdateInterval = s.timersUpdateInterval := by
  simp only [tick] at h
  split at h
  · split at h
    · exact absurd h (by simp)
    · exact absurd h (by simp)
    · rename_i instr heq
      have h3 := execInstruction_preserves_timing instr _ h
      exact h3
  · exact absurd h (by simp)

theorem frameStep_timer_cadence {s : State} {r : Bool} {t : State}
    (h : tick s = some (.ok (r, t))) (hlt : t.instCount + 1 < 256) :
    (t.instCount + 1 = t.timersUpdateInterval →
      frameStep s = some (.ok (r,
        {updateTimers {t with instCount := t.instCount + 1} with instCount := 0}))) ∧
    (t.instCount + 1 ≠ t.timersUpdateInterval →
      frameStep s = some (.ok (r, {t with instCount := t.instCount + 1}))) := by
  have hmod : (t.instCount + 1) % 256 = t.instCount + 1 := Nat.mod_eq_of_lt hlt
  constructor <;> intro hcond <;>
    simp only [frameStep, h] <;>
    rw [hmod] <;>
    simp [hcond]

theorem writeToMemory_fits (s : State) (start : Nat) (buf : List Nat)
    (hle : start + buf.length ≤ MEMORY_SIZE) :
    ∃ t, writeToMemory s start buf = .ok t ∧
      t.ticksPerFrame = s.ticksPerFrame ∧
      t.timersUpdateInterval = s.timersUpdateInterval := by
  have h : writeToMemory s start buf =
      .ok {s with memory := (List.range buf.length).foldl (fun m j => updFn m (start + j) (buf.getD j 0)) s.memory} := by
    unfold writeToMemory
    rw [if_neg (by omega)]
  exact ⟨_, h, rfl, rfl⟩

theorem newEmulator_ok (clock : Nat) (prog : List Nat)
    (hfit : PROGRAM_START_ADDRESS + prog.length ≤ MEMORY_SIZE) :
    ∃ e, newEmulator clock prog = .ok e ∧
      e.ticksPerFrame = roundDiv60SatU8 clock ∧
      e.timersUpdateInterval = roundDiv60SatU8 clock := by
  obtain ⟨e1, he1, f1a, f1b⟩ :=
    writeToMemory_fits (initState clock) PROGRAM_START_ADDRESS prog hfit
  obtain ⟨e2, he2, f2a, f2b⟩ :=
    writeToMemory_fits e1 FONT_START_ADDRESS FONT (by decide)
  refine ⟨e2, ?_, ?_, ?_⟩
  · simp [newEmulator, he1, he2]
  · rw [f2a, f1a]; rfl
  · rw [f2b, f1b]; rfl

/-- Projection used to evaluate the constructed tick count on a concrete
clock speed. -/
def newTicksPerFrame (clock : Nat) : Nat :=
  match newEmulator clock [] with
  | .ok e => e.ticksPerFrame
  | .error _ => 0

/-- **C8, counterexample.** The claim says both timing parameters equal
`round(clock_speed / 60)` for every clock speed, but the `as u8` cast
saturates: at clock speed 15330, `round(15330 / 60) = round(255.5) = 256`,
while the constructed emulator holds 255. -/
theorem c8_round_counterexample :
    newTicksPerFrame 15330 = 255 ∧ specRound60 15330 = 256 := ⟨rfl, rfl⟩

/-- **C8 (amended).** Both the ticks-per-frame count and the timer-update
interval are computed at construction as `round(clock_speed / 60)`
saturated to 255 by the `u8` cast (so they equal `round(clock_speed / 60)`
for every clock speed up to 15329, and in particular 7 at clock speed
400); each successful `run_frame` performs exactly `ticksPerFrame`
loop-body steps (`FrameSteps`), each containing exactly one tick; a tick
never changes the instruction counter or the configured interval; the
loop body applies the timer update exactly at those ticks where the
incremented instruction count reaches the interval (resetting the count),
and the timer update decrements each timer by one, saturating at zero. -/
theorem c8_timing_amended (clock : Nat) (prog : List Nat)
    (hc : clock < 65536)
    (hfit : PROGRAM_START_ADDRESS + prog.length ≤ MEMORY_SIZE) :
    (∃ e, newEmulator clock prog = .ok e ∧
      e.ticksPerFrame = roundDiv60SatU8 clock ∧
      e.timersUpdateInterval = roundDiv60SatU8 clock ∧
      (clock ≤ 15329 →
        e.ticksPerFrame = specRound60 clock ∧
        e.timersUpdateInterval = specRound60 clock)) ∧
    specRound60 400 = 7 ∧
    (∀ s u, runFrame s = some (.ok u) →
      ∃ t, FrameSteps s.ticksPerFrame s t ∧ u = {t with redraw := u.redraw}) ∧
    (∀ s, (updateTimers s).delayTimer = s.delayTimer - 1 ∧
      (updateTimers s).soundTimer = s.soundTimer - 1) ∧
    (∀ (s : State) (r : Bool) (t : State), tick s = some (.ok (r, t)) →
      t.instCount = s.instCount ∧
      t.timersUpdateInterval = s.timersUpdateInterval) ∧
    (∀ (s : State) (r : Bool) (t : State), tick s = some (.ok (r, t)) →
      t.instCount + 1 < 256 →
      ((t.instCount + 1 = t.timersUpdateInterval →
        frameStep s = some (.ok (r,
          {updateTimers {t with instCount := t.instCount + 1} with
            instCount := 0}))) ∧
      (t.instCount + 1 ≠ t.timersUpdateInterval →
        frameStep s = some (.ok (r, {t with instCount := t.instCount + 1}))))) := by
  obtain ⟨e, he, ha, hb⟩ := newEmulator_ok clock prog hfit
  refine ⟨⟨e, he, ha, hb, fun hle => ?_⟩, rfl,
    fun s u h => runFrame_steps h,
    updateTimers_saturating,
    fun s r t h => ⟨(tick_preserves_timing h).1, (tick_preserves_timing h).2.2⟩,
    fun s r t h hlt => frameStep_timer_cadence h hlt⟩
  have : roundDiv60SatU8 clock = specRound60 clock := by
    unfold roundDiv60SatU8 specRound60
    omega
  exact ⟨by rw [ha, this], by rw [hb, this]⟩

/-- Witness for C8 (amended): clock speed 400 with the empty program —
both parameters are `round(400 / 60) = 7`. -/
theorem c8_timing_amended_witness :
    (400 : Nat) < 65536 ∧ PROGRAM_START_ADDRESS + ([] : List Nat).length ≤ MEMORY_SIZE ∧
    (∃ e, newEmulator 400 [] = .ok e ∧
      e.ticksPerFrame = roundDiv60SatU8 400 ∧
      e.timersUpdateInterval = roundDiv60SatU8 400 ∧
      ((400 : Nat) ≤ 15329 →
        e.ticksPerFrame = specRound60 400 ∧
        e.timersUpdateInterval = specRound60 400)) :=
  ⟨by decide, by decide,
    (c8_timing_amended 400 [] (by decide) (by decide)).1⟩

/-! ## C5: sprite drawing -/

/-- The pixel that the column loop of `draw_to_fb` tests at column offset
`j`, starting from row byte `b`: bit 128 of the byte after `j` one-bit
left shifts (each truncated to 8 bits, as for `u8`). -/
def rowBit (b j : Nat) : Bool := ((b <<< j) % 256) &&& 128 != 0

theorem and128_mod256 (b : Nat) : (b % 256) &&& 128 = b &&& 128 := by
  apply Nat.eq_of_testBit_eq
  intro i
  rw [Nat.testBit_and, Nat.testBit_and]
  rcases eq_or_ne i 7 with h | h
  · subst h
    have hmodbit : (b % 256).testBit 7 = b.testBit 7 := by
      have h256 : (256 : Nat) = 2 ^ 8 := by norm_num
      rw [h256, Nat.testBit_mod_two_pow]
      simp
    rw [hmodbit]
  · have h128 : (128 : Nat).testBit i = false := by
      have h2 : (128 : Nat) = 2 ^ 7 := by norm_num
      rw [h2, Nat.testBit_two_pow]
      exact decide_eq_false (Ne.symm h)
    rw [h128]
    simp

theorem rowBit_zero (b : Nat) : (rowBit b 0 = true) ↔ b &&& 128 ≠ 0 := by
  unfold rowBit
  rw [Nat.shiftLeft_eq]
  simp [and128_mod256]

theorem rowBit_succ (b j : Nat) :
    rowBit b (j + 1) = rowBit ((b <<< 1) % 256) j := by
  unfold rowBit
  have h : (((b <<< 1) % 256) <<< j) % 256 = (b <<< (j + 1)) % 256 := by
    simp only [Nat.shiftLeft_eq, Nat.mod_mul_mod]
    ring_nf
  rw [h]

theorem drawRowAux_spec (x y : Nat) : ∀ (c col b : Nat) (fb : FB) (er : Bool),
    (∀ y' x', (drawRowAux x y c col b fb er).1 y' x' =
      if y' = y ∧ x + col ≤ x' ∧ x' < x + col + c ∧
          rowBit b (x' - (x + col)) = true
      then !(fb y' x') else fb y' x') ∧
    ((drawRowAux x y c col b fb er).2 = true ↔
      (er = true ∨ ∃ j, j < c ∧ rowBit b j = true ∧ fb y (x + col + j) = true)) := by
  intro c
  induction c with
  | zero =>
    intro col b fb er
    refine ⟨fun y' x' => ?_, by simp [drawRowAux]⟩
    rw [drawRowAux, if_neg (by rintro ⟨h1, h2, h3, h4⟩; omega)]
  | succ c ih =>
    intro col b fb er
    have hshift : ∀ j, rowBit b (j + 1) = rowBit ((b <<< 1) % 256) j :=
      fun j => rowBit_succ b j
    by_cases hpx : b &&& 128 ≠ 0
    · by_cases hfb : fb y (x + col) = true
      · -- pixel set, cell currently on: the cell is erased
        have hstep : drawRowAux x y (c + 1) col b fb er =
            drawRowAux x y c (col + 1) ((b <<< 1) % 256)
              (updFB fb y (x + col) false) true := by
          rw [drawRowAux]
          simp [hpx, hfb]
        obtain ⟨ihf, ihe⟩ := ih (col + 1) ((b <<< 1) % 256)
          (updFB fb y (x + col) false) true
        rw [hstep]
        constructor
        · intro y' x'
          rw [ihf y' x']
          by_cases hy : y' = y
          · rw [hy]
            by_cases hcell : x' = x + col
            · subst hcell
              rw [if_neg (by rintro ⟨-, h2, -, -⟩; omega),
                if_pos ⟨rfl, by omega, by omega, by
                  rw [Nat.sub_self]
                  exact rowBit_zero b |>.mpr hpx⟩]
              simp [updFB, hfb]
            · have hfb1 : updFB fb y (x + col) false y x' = fb y x' := by
                simp [updFB, hcell]
              have hcond : (y = y ∧ x + (col + 1) ≤ x' ∧ x' < x + (col + 1) + c ∧
                  rowBit ((b <<< 1) % 256) (x' - (x + (col + 1))) = true) ↔
                  (y = y ∧ x + col ≤ x' ∧ x' < x + col + (c + 1) ∧
                  rowBit b (x' - (x + col)) = true) := by
                constructor
                · rintro ⟨-, h2, h3, h4⟩
                  refine ⟨rfl, by omega, by omega, ?_⟩
                  have hsub : x' - (x + col) = (x' - (x + (col + 1))) + 1 := by omega
                  rw [hsub, hshift]
                  exact h4
                · rintro ⟨-, h2, h3, h4⟩
                  have h2' : x + (col + 1) ≤ x' := by omega
                  refine ⟨rfl, h2', by omega, ?_⟩
                  have hsub : x' - (x + col) = (x' - (x + (col + 1))) + 1 := by omega
                  rw [hsub, hshift] at h4
                  exact h4
              rw [if_congr hcond rfl rfl, hfb1]
          · rw [if_neg (by rintro ⟨h1, -⟩; exact hy h1),
              if_neg (by rintro ⟨h1, -⟩; exact hy h1)]
            simp [updFB, hy]
        · rw [ihe]
          constructor
          · intro _
            exact Or.inr ⟨0, by omega, rowBit_zero b |>.mpr hpx, by
              rw [Nat.add_zero]; exact hfb⟩
          · intro _
            exact Or.inl rfl
      · -- pixel set, cell currently off: the cell is turned on
        have hstep : drawRowAux x y (c + 1) col b fb er =
            drawRowAux x y c (col + 1) ((b <<< 1) % 256)
              (updFB fb y (x + col) true) er := by
          rw [drawRowAux]
          simp [hpx, hfb]
        obtain ⟨ihf, ihe⟩ := ih (col + 1) ((b <<< 1) % 256)
          (updFB fb y (x + col) true) er
        rw [hstep]
        constructor
        · intro y' x'
          rw [ihf y' x']
          by_cases hy : y' = y
          · rw [hy]
            by_cases hcell : x' = x + col
            · subst hcell
              rw [if_neg (by rintro ⟨-, h2, -, -⟩; omega),
                if_pos ⟨rfl, by omega, by omega, by
                  rw [Nat.sub_self]
                  exact rowBit_zero b |>.mpr hpx⟩]
              simp only [Bool.not_eq_true] at hfb
              simp [updFB, hfb]
            · have hfb1 : updFB fb y (x + col) true y x' = fb y x' := by
                simp [updFB, hcell]
              have hcond : (y = y ∧ x + (col + 1) ≤ x' ∧ x' < x + (col + 1) + c ∧
                  rowBit ((b <<< 1) % 256) (x' - (x + (col + 1))) = true) ↔
                  (y = y ∧ x + col ≤ x' ∧ x' < x + col + (c + 1) ∧
                  rowBit b (x' - (x + col)) = true) := by
                constructor
                · rintro ⟨-, h2, h3, h4⟩
                  refine ⟨rfl, by omega, by omega, ?_⟩
                  have hsub : x' - (x + col) = (x' - (x + (col + 1))) + 1 := by omega
                  rw [hsub, hshift]
                  exact h4
                · rintro ⟨-, h2, h3, h4⟩
                  refine ⟨rfl, by omega, by omega, ?_⟩
                  have hsub : x' - (x + col) = (x' - (x + (col + 1))) + 1 := by omega
                  rw [hsub, hshift] at h4
                  exact h4
              rw [if_congr hcond rfl rfl, hfb1]
          · rw [if_neg (by rintro ⟨h1, -⟩; exact hy h1),
              if_neg (by rintro ⟨h1, -⟩; exact hy h1)]
            simp [updFB, hy]
        · rw [ihe]
          constructor
          · rintro (her | ⟨j, hj, hbit, hcellon⟩)
            · exact Or.inl her
            · refine Or.inr ⟨j + 1, by omega, by rw [hshift]; exact hbit, ?_⟩
              have : updFB fb y (x + col) true y (x + (col + 1) + j) = fb y (x + (col + 1) + j) := by
                simp [updFB]
                omega
              rw [this] at hcellon
              have harith : x + col + (j + 1) = x + (col + 1) + j := by omega
              rw [harith]
              exact hcellon
          · rintro (her | ⟨j, hj, hbit, hcellon⟩)
            · exact Or.inl her
            · match j, hj with
              | 0, _ =>
                rw [Nat.add_zero] at hcellon
                rw [hcellon] at hfb
                exact absurd rfl hfb
              | j + 1, hj =>
                refine Or.inr ⟨j, by omega, by rw [hshift] at hbit; exact hbit, ?_⟩
                have harith : x + (col + 1) + j = x + col + (j + 1) := by omega
                rw [harith]
                have : updFB fb y (x + col) true y (x + col + (j + 1)) = fb y (x + col + (j + 1)) := by
                  simp [updFB]
                rw [this]
                exact hcellon
    · -- pixel not set: nothing happens at this column
      have hstep : drawRowAux x y (c + 1) col b fb er =
          drawRowAux x y c (col + 1) ((b <<< 1) % 256) fb er := by
        rw [drawRowAux]
        simp [hpx]
      obtain ⟨ihf, ihe⟩ := ih (col + 1) ((b <<< 1) % 256) fb er
      rw [hstep]
      have hbit0 : ¬ (rowBit b 0 = true) := fun h => hpx (rowBit_zero b |>.mp h)
      constructor
      · intro y' x'
        rw [ihf y' x']
        by_cases hy : y' = y
        · rw [hy]
          by_cases hcell : x' = x + col
          · subst hcell
            rw [if_neg (by rintro ⟨-, h2, -, -⟩; omega),
              if_neg (by
                rintro ⟨-, -, -, h4⟩
                rw [Nat.sub_self] at h4
                exact hbit0 h4)]
          · have hcond : (y = y ∧ x + (col + 1) ≤ x' ∧ x' < x + (col + 1) + c ∧
                rowBit ((b <<< 1) % 256) (x' - (x + (col + 1))) = true) ↔
                (y = y ∧ x + col ≤ x' ∧ x' < x + col + (c + 1) ∧
                rowBit b (x' - (x + col)) = true) := by
              constructor
              · rintro ⟨-, h2, h3, h4⟩
                refine ⟨rfl, by omega, by omega, ?_⟩
                have hsub : x' - (x + col) = (x' - (x + (col + 1))) + 1 := by omega
                rw [hsub, hshift]
                exact h4
              · rintro ⟨-, h2, h3, h4⟩
                refine ⟨rfl, by omega, by omega, ?_⟩
                have hsub : x' - (x + col) = (x' - (x + (col + 1))) + 1 := by omega
                rw [hsub, hshift] at h4
                exact h4
            rw [if_congr hcond rfl rfl]
        · rw [if_neg (by rintro ⟨h1, -⟩; exact hy h1),
            if_neg (by rintro ⟨h1, -⟩; exact hy h1)]
      · rw [ihe]
        constructor
        · rintro (her | ⟨j, hj, hbit, hcellon⟩)
          · exact Or.inl her
          · refine Or.inr ⟨j + 1, by omega, by rw [hshift]; exact hbit, ?_⟩
            have harith : x + col + (j + 1) = x + (col + 1) + j := by omega
            rw [harith]
            exact hcellon
        · rintro (her | ⟨j, hj, hbit, hcellon⟩)
          · exact Or.inl her
          · match j, hj with
            | 0, _ => exact absurd hbit hbit0
            | j + 1, hj =>
              refine Or.inr ⟨j, by omega, by rw [hshift] at hbit; exact hbit, ?_⟩
              have harith : x + (col + 1) + j = x + col + (j + 1) := by omega
              rw [harith]
              exact hcellon

theorem drawRowsAux_spec (x y : Nat) (sprite : List Nat) (colIter : Nat) :
    ∀ (r row : Nat) (fb : FB) (er : Bool),
    (∀ y' x', (drawRowsAux x y sprite colIter r row fb er).1 y' x' =
      if y + row ≤ y' ∧ y' < y + row + r ∧ x ≤ x' ∧ x' < x + colIter ∧
          rowBit (sprite.getD (y' - y) 0) (x' - x) = true
      then !(fb y' x') else fb y' x') ∧
    ((drawRowsAux x y sprite colIter r row fb er).2 = true ↔
      (er = true ∨ ∃ k j, k < r ∧ j < colIter ∧
        rowBit (sprite.getD (row + k) 0) j = true ∧
        fb (y + row + k) (x + j) = true)) := by
  intro r
  induction r with
  | zero =>
    intro row fb er
    constructor
    · intro y' x'
      rw [drawRowsAux, if_neg (by rintro ⟨h1, h2, -⟩; omega)]
    · rw [drawRowsAux]
      simp
  | succ r ih =>
    intro row fb er
    obtain ⟨rowf, rowe⟩ := drawRowAux_spec x (y + row) colIter 0
      (sprite.getD row 0) fb er
    simp only [Nat.add_zero] at rowf rowe
    obtain ⟨ihf, ihe⟩ := ih (row + 1)
      (drawRowAux x (y + row) colIter 0 (sprite.getD row 0) fb er).1
      (drawRowAux x (y + row) colIter 0 (sprite.getD row 0) fb er).2
    have hstep : drawRowsAux x y sprite colIter (r + 1) row fb er =
        drawRowsAux x y sprite colIter r (row + 1)
          (drawRowAux x (y + row) colIter 0 (sprite.getD row 0) fb er).1
          (drawRowAux x (y + row) colIter 0 (sprite.getD row 0) fb er).2 := by
      rw [drawRowsAux]
    rw [hstep]
    constructor
    · intro y' x'
      rw [ihf y' x']
      by_cases hy : y' = y + row
      · -- the row drawn in this step
        rw [if_neg (by rintro ⟨h1, -⟩; omega), rowf y' x']
        have hcond : (y' = y + row ∧ x ≤ x' ∧ x' < x + colIter ∧
            rowBit (sprite.getD row 0) (x' - x) = true) ↔
            (y + row ≤ y' ∧ y' < y + row + (r + 1) ∧ x ≤ x' ∧ x' < x + colIter ∧
            rowBit (sprite.getD (y' - y) 0) (x' - x) = true) := by
          constructor
          · rintro ⟨-, h2, h3, h4⟩
            refine ⟨by omega, by omega, h2, h3, ?_⟩
            have hyy : y' - y = row := by omega
            rw [hyy]
            exact h4
          · rintro ⟨-, -, h3, h4, h5⟩
            refine ⟨hy, h3, h4, ?_⟩
            have hyy : y' - y = row := by omega
            rw [hyy] at h5
            exact h5
        rw [if_congr hcond rfl rfl]
      · -- a row drawn by the remaining iterations (or none)
        have hfb1 : (drawRowAux x (y + row) colIter 0 (sprite.getD row 0) fb er).1 y' x' = fb y' x' := by
          rw [rowf y' x', if_neg (by rintro ⟨h1, -⟩; exact hy h1)]
        rw [hfb1]
        have hcond : (y + (row + 1) ≤ y' ∧ y' < y + (row + 1) + r ∧ x ≤ x' ∧
            x' < x + colIter ∧ rowBit (sprite.getD (y' - y) 0) (x' - x) = true) ↔
            (y + row ≤ y' ∧ y' < y + row + (r + 1) ∧ x ≤ x' ∧ x' < x + colIter ∧
            rowBit (sprite.getD (y' - y) 0) (x' - x) = true) := by
          constructor
          · rintro ⟨h1, h2, h3, h4, h5⟩
            exact ⟨by omega, by omega, h3, h4, h5⟩
          · rintro ⟨h1, h2, h3, h4, h5⟩
            exact ⟨by omega, by omega, h3, h4, h5⟩
        rw [if_congr hcond rfl rfl]
    · rw [ihe, rowe]
      constructor
      · rintro (hrow | ⟨k, j, hk, hj, hbit, hcell⟩)
        · rcases hrow with her | ⟨j, hj, hbit, hcell⟩
          · exact Or.inl her
          · refine Or.inr ⟨0, j, by omega, hj, ?_, ?_⟩
            · rw [Nat.add_zero]
              exact hbit
            · rw [Nat.add_zero]
              exact hcell
        · have hne : y + (row + 1) + k ≠ y + row := by omega
          rw [rowf (y + (row + 1) + k) (x + j), if_neg (by
            rintro ⟨h1, -⟩
            exact hne h1)] at hcell
          refine Or.inr ⟨k + 1, j, by omega, hj, ?_, ?_⟩
          · have harith : row + (k + 1) = row + 1 + k := by omega
            rw [harith]
            exact hbit
          · have harith : y + row + (k + 1) = y + (row + 1) + k := by omega
            rw [harith]
            exact hcell
      · rintro (her | ⟨k, j, hk, hj, hbit, hcell⟩)
        · exact Or.inl (Or.inl her)
        · match k, hk with
          | 0, _ =>
            rw [Nat.add_zero] at hbit
            rw [Nat.add_zero] at hcell
            exact Or.inl (Or.inr ⟨j, hj, hbit, hcell⟩)
          | k + 1, hk =>
            refine Or.inr ⟨k, j, by omega, hj, ?_, ?_⟩
            · have harith : row + 1 + k = row + (k + 1) := by omega
              rw [harith]
              exact hbit
            · have hne : y + (row + 1) + k ≠ y + row := by omega
              rw [rowf (y + (row + 1) + k) (x + j), if_neg (by
                rintro ⟨h1, -⟩
                exact hne h1)]
              have harith : y + (row + 1) + k = y + row + (k + 1) := by omega
              rw [harith]
              exact hcell

theorem and63_eq (a : Nat) : a &&& 63 = a % 64 := by
  have h := Nat.and_pow_two_sub_one_eq_mod a 6
  norm_num at h
  exact h

theorem and31_eq (a : Nat) : a &&& 31 = a % 32 := by
  have h := Nat.and_pow_two_sub_one_eq_mod a 5
  norm_num at h
  exact h

set_option maxRecDepth 10000 in
theorem and128_ne_testBit (a : Nat) : (a &&& 128 != 0) = a.testBit 7 := by
  have hb : ∀ c, c < 256 → ((c &&& 128 != 0) = c.testBit 7) := by decide
  have h1 : (a &&& 128 != 0) = ((a % 256) &&& 128 != 0) := by rw [and128_mod256]
  have h2 : (a % 256).testBit 7 = a.testBit 7 := by
    have h256 : (256 : Nat) = 2 ^ 8 := by norm_num
    rw [h256, Nat.testBit_mod_two_pow]
    simp
  rw [h1, hb (a % 256) (Nat.mod_lt _ (by norm_num)), h2]

/-- The pixel tested at column offset `j` of a sprite-row byte `b` is bit
`7 - j` of the byte: the loop shifts the byte left and tests bit 7. -/
theorem rowBit_testBit (b j : Nat) (hj : j < 8) :
    rowBit b j = b.testBit (7 - j) := by
  unfold rowBit
  rw [and128_mod256, and128_ne_testBit, Nat.testBit_shiftLeft]
  have hge : decide (7 ≥ j) = true := by
    simp
    omega
  rw [hge]
  simp

theorem sprite_getD (s : State) (n r : Nat) (hr : r < n) :
    ((List.range n).map fun k => s.memory (s.i + k)).getD r 0 =
      s.memory (s.i + r) := by
  simp [List.getD_eq_getElem?_getD, List.getElem?_map, List.getElem?_range, hr]

/-- The full drawing contract of claim C5 at one input, with
`X = Vx mod 64` and `Y = Vy mod 32`: the execution succeeds and requests
a redraw; each display cell inside the clipped window toggles exactly
when its sprite bit (bit `7-(px-X)` of sprite row `py-Y`, read from
memory at the index register) is set, and every cell outside the window —
in particular past column 63 or row 31 — is unchanged; `VF` becomes 1
exactly when some toggled cell was on (erased), else 0; and the
non-flag registers, program counter and memory are untouched. -/
def DrawClaimAt (s : State) (x y n : Nat) : Prop :=
  ∃ t, execInstruction (.draw x y n) s = some (.ok (true, t)) ∧
    (∀ py px,
      t.frameBuf py px =
        if s.registers y % 32 ≤ py ∧
            py < s.registers y % 32 + min (32 - s.registers y % 32) n ∧
            s.registers x % 64 ≤ px ∧
            px < s.registers x % 64 + min (64 - s.registers x % 64) 8 ∧
            (s.memory (s.i + (py - s.registers y % 32))).testBit
              (7 - (px - s.registers x % 64)) = true
        then !(s.frameBuf py px) else s.frameBuf py px) ∧
    (t.registers 0xF = 1 ∨ t.registers 0xF = 0) ∧
    (t.registers 0xF = 1 ↔ ∃ py px,
      s.registers y % 32 ≤ py ∧
      py < s.registers y % 32 + min (32 - s.registers y % 32) n ∧
      s.registers x % 64 ≤ px ∧
      px < s.registers x % 64 + min (64 - s.registers x % 64) 8 ∧
      (s.memory (s.i + (py - s.registers y % 32))).testBit
        (7 - (px - s.registers x % 64)) = true ∧
      s.frameBuf py px = true) ∧
    (∀ j, j ≠ 0xF → t.registers j = s.registers j) ∧
    t.programCounter = s.programCounter ∧ t.memory = s.memory

/-- **C5.** For every Draw execution whose sprite read is in bounds (with
byte-valued sprite memory): the `n` sprite rows are read from memory
starting at the index register and drawn with top-left corner
`(Vx mod 64, Vy mod 32)`; sprite pixels past column 63 or row 31 are
clipped, not wrapped; each set sprite bit XOR-toggles its display cell;
and `VF` is set to 1 iff at least one display pixel went from on to off. -/
theorem c5_draw_spec (s : State) (x y n : Nat)
    (hin : s.i + n ≤ MEMORY_SIZE)
    (hmem : ∀ k, k < n → s.memory (s.i + k) < 256) :
    DrawClaimAt s x y n := by
  unfold DrawClaimAt
  have hsplen : ((List.range n).map fun k => s.memory (s.i + k)).length = n := by
    simp
  have h63 : ∀ a : Nat, a &&& (WIDTH - 1) = a % 64 := fun a => and63_eq a
  have h31 : ∀ a : Nat, a &&& (HEIGHT - 1) = a % 32 := fun a => and31_eq a
  have hdtf : drawToFb s.frameBuf (s.registers x) (s.registers y)
      ((List.range n).map fun k => s.memory (s.i + k)) =
      drawRowsAux (s.registers x % 64) (s.registers y % 32)
        ((List.range n).map fun k => s.memory (s.i + k))
        (min (64 - s.registers x % 64) 8)
        (min (32 - s.registers y % 32) n) 0 s.frameBuf false := by
    simp only [drawToFb, h63, h31, hsplen]
    rfl
  obtain ⟨pf, pe⟩ := drawRowsAux_spec (s.registers x % 64) (s.registers y % 32)
    ((List.range n).map fun k => s.memory (s.i + k))
    (min (64 - s.registers x % 64) 8)
    (min (32 - s.registers y % 32) n) 0 s.frameBuf false
  simp only [Nat.add_zero, Nat.zero_add] at pf pe
  have hexec : execInstruction (.draw x y n) s = some (.ok (true,
      {s with
        frameBuf := (drawToFb s.frameBuf (s.registers x) (s.registers y)
          ((List.range n).map fun k => s.memory (s.i + k))).1,
        registers := updFn s.registers 0xF
          (if (drawToFb s.frameBuf (s.registers x) (s.registers y)
            ((List.range n).map fun k => s.memory (s.i + k))).2 then 1 else 0)})) := by
    simp only [execInstruction]
    rw [if_pos hin]
  have hcond : ∀ py px,
      (s.registers y % 32 ≤ py ∧
        py < s.registers y % 32 + min (32 - s.registers y % 32) n ∧
        s.registers x % 64 ≤ px ∧
        px < s.registers x % 64 + min (64 - s.registers x % 64) 8 ∧
        rowBit (((List.range n).map fun k => s.memory (s.i + k)).getD
          (py - s.registers y % 32) 0) (px - s.registers x % 64) = true) ↔
      (s.registers y % 32 ≤ py ∧
        py < s.registers y % 32 + min (32 - s.registers y % 32) n ∧
        s.registers x % 64 ≤ px ∧
        px < s.registers x % 64 + min (64 - s.registers x % 64) 8 ∧
        (s.memory (s.i + (py - s.registers y % 32))).testBit
          (7 - (px - s.registers x % 64)) = true) := by
    intro py px
    constructor
    · rintro ⟨h1, h2, h3, h4, h5⟩
      refine ⟨h1, h2, h3, h4, ?_⟩
      rw [sprite_getD s n _ (by omega)] at h5
      rw [rowBit_testBit _ _ (by omega)] at h5
      exact h5
    · rintro ⟨h1, h2, h3, h4, h5⟩
      refine ⟨h1, h2, h3, h4, ?_⟩
      rw [sprite_getD s n _ (by omega), rowBit_testBit _ _ (by omega)]
      exact h5
  refine ⟨_, hexec, ?_, ?_, ?_, ?_, rfl, rfl⟩
  · intro py px
    show (drawToFb s.frameBuf (s.registers x) (s.registers y)
      ((List.range n).map fun k => s.memory (s.i + k))).1 py px = _
    rw [hdtf, pf py px, if_congr (hcond py px) rfl rfl]
  · show updFn s.registers 0xF _ 0xF = 1 ∨ updFn s.registers 0xF _ 0xF = 0
    by_cases hE : (drawToFb s.frameBuf (s.registers x) (s.registers y)
        ((List.range n).map fun k => s.memory (s.i + k))).2 = true
    · left
      simp [updFn, hE]
    · right
      simp only [Bool.not_eq_true] at hE
      simp [updFn, hE]
  · have hE2 : ((drawToFb s.frameBuf (s.registers x) (s.registers y)
        ((List.range n).map fun k => s.memory (s.i + k))).2 = true) ↔
        (∃ py px,
          s.registers y % 32 ≤ py ∧
          py < s.registers y % 32 + min (32 - s.registers y % 32) n ∧
          s.registers x % 64 ≤ px ∧
          px < s.registers x % 64 + min (64 - s.registers x % 64) 8 ∧
          (s.memory (s.i + (py - s.registers y % 32))).testBit
            (7 - (px - s.registers x % 64)) = true ∧
          s.frameBuf py px = true) := by
      rw [hdtf, pe]
      constructor
      · rintro (hfalse | ⟨k, j, hk, hj, hbit, hcell⟩)
        · exact absurd hfalse (by simp)
        · refine ⟨s.registers y % 32 + k, s.registers x % 64 + j,
            by omega, by omega, by omega, by omega, ?_, hcell⟩
          have ha : s.registers y % 32 + k - s.registers y % 32 = k := by omega
          have hb : s.registers x % 64 + j - s.registers x % 64 = j := by omega
          rw [ha, hb, ← sprite_getD s n k (by omega),
            ← rowBit_testBit _ _ (by omega)]
          exact hbit
      · rintro ⟨py, px, h1, h2, h3, h4, h5, h6⟩
        refine Or.inr ⟨py - s.registers y % 32, px - s.registers x % 64,
          by omega, by omega, ?_, ?_⟩
        · rw [sprite_getD s n _ (by omega), rowBit_testBit _ _ (by omega)]
          exact h5
        · have ha : s.registers y % 32 + (py - s.registers y % 32) = py := by omega
          have hb : s.registers x % 64 + (px - s.registers x % 64) = px := by omega
          rw [ha, hb]
          exact h6
    have hVF : (updFn s.registers 0xF
        (if (drawToFb s.frameBuf (s.registers x) (s.registers y)
          ((List.range n).map fun k => s.memory (s.i + k))).2 = true
        then 1 else 0) 0xF = 1) ↔
        ((drawToFb s.frameBuf (s.registers x) (s.registers y)
          ((List.range n).map fun k => s.memory (s.i + k))).2 = true) := by
      rcases hB : (drawToFb s.frameBuf (s.registers x) (s.registers y)
          ((List.range n).map fun k => s.memory (s.i + k))).2 with _ | _ <;>
        simp [updFn, hB]
    exact hVF.trans hE2
  · intro j hj
    show updFn s.registers 0xF _ j = s.registers j
    simp [updFn, hj]

/-- State for the C5 witness: a one-row sprite `0xFF` at memory address 0
(the index register), drawn at `V0 = 60, V1 = 0` — clipped at the right
edge. -/
def c5wState : State := {zeroState with
  memory := fun a => if a = 0 then 255 else 0
  registers := fun j => if j = 0 then 60 else 0}

/-- Witness for C5: the bounds hypotheses hold for the concrete one-row
draw from `c5wState`. -/
theorem c5_draw_spec_witness :
    c5wState.i + 1 ≤ MEMORY_SIZE ∧
    (∀ k, k < 1 → c5wState.memory (c5wState.i + k) < 256) ∧
    DrawClaimAt c5wState 0 1 1 :=
  ⟨by decide, by decide, c5_draw_spec c5wState 0 1 1 (by decide) (by decide)⟩

end Chip8
